import Mathlib

/-!
Verification of the TACACS+ wire core (`tacacs_plus/packet.py`): the fixed
12-byte header codec (`TACACSHeader.packed` / `TACACSHeader.unpacked`), the
MD5-chain body obfuscation (`crypt`), and packet assembly (`TACACSPacket`).

Bytes are modelled as `Nat` (with values below 256 where it matters) and byte
strings as `List Nat`.  Python exceptions are modelled with `Except`:
the `ValueError` raised by `TACACSHeader.unpacked` when `raw.read(4)` yields
nothing becomes `DecodeError.headerDecodeError`, and a `struct.error` raised
by `struct.unpack` on a buffer of the wrong size becomes
`DecodeError.structError`.
-/

/-!
MD5, modelling the Python `hashlib.md5(...).digest()` over a list of bytes.
This is the standard RFC 1321 algorithm: pad to a multiple of 64 bytes,
then run 64 rounds per 512-bit block over a 4-word state, words little-endian.
-/

/-- Little-endian 4-byte encoding of a 32-bit value. -/
def toLE4 (n : Nat) : List Nat :=
  [n % 256, n / 256 % 256, n / 65536 % 256, n / 16777216 % 256]

/-- Little-endian 8-byte encoding of a 64-bit value. -/
def toLE8 (n : Nat) : List Nat :=
  toLE4 (n % 4294967296) ++ toLE4 (n / 4294967296)

/-- Left-rotation of a 32-bit value by `n < 32` bits. -/
def rotl32 (x n : Nat) : Nat :=
  ((x <<< n) ||| (x >>> (32 - n))) % 4294967296

/-- The 64 MD5 round constants `K[i] = floor(2^32 * |sin(i+1)|)`. -/
def mdK : List Nat :=
  [0xd76aa478, 0xe8c7b756, 0x242070db, 0xc1bdceee,
   0xf57c0faf, 0x4787c62a, 0xa8304613, 0xfd469501,
   0x698098d8, 0x8b44f7af, 0xffff5bb1, 0x895cd7be,
   0x6b901122, 0xfd987193, 0xa679438e, 0x49b40821,
   0xf61e2562, 0xc040b340, 0x265e5a51, 0xe9b6c7aa,
   0xd62f105d, 0x02441453, 0xd8a1e681, 0xe7d3fbc8,
   0x21e1cde6, 0xc33707d6, 0xf4d50d87, 0x455a14ed,
   0xa9e3e905, 0xfcefa3f8, 0x676f02d9, 0x8d2a4c8a,
   0xfffa3942, 0x8771f681, 0x6d9d6122, 0xfde5380c,
   0xa4beea44, 0x4bdecfa9, 0xf6bb4b60, 0xbebfbc70,
   0x289b7ec6, 0xeaa127fa, 0xd4ef3085, 0x04881d05,
   0xd9d4d039, 0xe6db99e5, 0x1fa27cf8, 0xc4ac5665,
   0xf4292244, 0x432aff97, 0xab9423a7, 0xfc93a039,
   0x655b59c3, 0x8f0ccc92, 0xffeff47d, 0x85845dd1,
   0x6fa87e4f, 0xfe2ce6e0, 0xa3014314, 0x4e0811a1,
   0xf7537e82, 0xbd3af235, 0x2ad7d2bb, 0xeb86d391]

/-- The 64 per-round left-rotation amounts of MD5. -/
def mdS : List Nat :=
  [7, 12, 17, 22, 7, 12, 17, 22, 7, 12, 17, 22, 7, 12, 17, 22,
   5, 9, 14, 20, 5, 9, 14, 20, 5, 9, 14, 20, 5, 9, 14, 20,
   4, 11, 16, 23, 4, 11, 16, 23, 4, 11, 16, 23, 4, 11, 16, 23,
   6, 10, 15, 21, 6, 10, 15, 21, 6, 10, 15, 21, 6, 10, 15, 21]

/-- MD5 message padding: append `0x80`, zero bytes up to 56 mod 64, then the
original bit length as a little-endian 64-bit value. -/
def md5pad (msg : List Nat) : List Nat :=
  msg ++ [0x80] ++ List.replicate ((119 - msg.length % 64) % 64) 0
      ++ toLE8 (msg.length * 8)

/-- Decode a block of bytes into little-endian 32-bit words. -/
def toWords : List Nat → List Nat
  | b0 :: b1 :: b2 :: b3 :: rest =>
      (b0 + b1 * 256 + b2 * 65536 + b3 * 16777216) :: toWords rest
  | _ => []

/-- Split a list into 64-byte blocks (fuel-based so that it reduces). -/
def chunksAux : Nat → List Nat → List (List Nat)
  | 0, _ => []
  | n + 1, l => if l.isEmpty then [] else l.take 64 :: chunksAux n (l.drop 64)

/-- Split a list into 64-byte blocks. -/
def chunks (l : List Nat) : List (List Nat) :=
  chunksAux ((l.length + 63) / 64) l

/-- One MD5 round: round `i` applied to state `(a, b, c, d)` with message
words `M`. -/
def md5round (M : List Nat) (st : Nat × Nat × Nat × Nat) (i : Nat) :
    Nat × Nat × Nat × Nat :=
  match st with
  | (a, b, c, d) =>
    let fg : Nat × Nat :=
      if i < 16 then ((b &&& c) ||| ((b ^^^ 0xffffffff) &&& d), i)
      else if i < 32 then ((d &&& b) ||| ((d ^^^ 0xffffffff) &&& c), (5 * i + 1) % 16)
      else if i < 48 then (b ^^^ c ^^^ d, (3 * i + 5) % 16)
      else (c ^^^ (b ||| (d ^^^ 0xffffffff)), (7 * i) % 16)
    let tmp := (fg.1 + a + mdK.getD i 0 + M.getD fg.2 0) % 4294967296
    (d, (b + rotl32 tmp (mdS.getD i 0)) % 4294967296, b, c)

/-- Process one 64-byte block: run the 64 rounds, then add the result back
into the incoming state, all mod `2^32`. -/
def md5block (st : Nat × Nat × Nat × Nat) (block : List Nat) :
    Nat × Nat × Nat × Nat :=
  match st, (List.range 64).foldl (md5round (toWords block)) st with
  | (a0, b0, c0, d0), (a, b, c, d) =>
      ((a0 + a) % 4294967296, (b0 + b) % 4294967296,
       (c0 + c) % 4294967296, (d0 + d) % 4294967296)

/-- MD5 digest of a byte list: 16 bytes, the final state words little-endian.
Models the Python `md5(msg).digest()`. -/
def md5 (msg : List Nat) : List Nat :=
  match (chunks (md5pad msg)).foldl md5block
      (0x67452301, 0xefcdab89, 0x98badcfe, 0x10325476) with
  | (a, b, c, d) => toLE4 a ++ toLE4 b ++ toLE4 c ++ toLE4 d

/-!
The header codec, from `class TACACSHeader` in `tacacs_plus/packet.py`.
-/

/-- Big-endian 4-byte encoding, modelling `struct.pack("!I", n)` for
`n < 2^32` (Python raises on out-of-range values, so the embedding is only
used under that hypothesis). -/
def packUInt32BE (n : Nat) : List Nat :=
  [n / 16777216 % 256, n / 65536 % 256, n / 256 % 256, n % 256]

/-- Big-endian recombination of 4 bytes, modelling one `!I` field of
`struct.unpack("!II", ...)`. -/
def fromBE4 (b0 b1 b2 b3 : Nat) : Nat :=
  ((b0 * 256 + b1) * 256 + b2) * 256 + b3

/-- The `TACACSHeader` object: `version`, `type`, `session_id`, `length`,
`seq_no`, `flags`, in the parameter order of the constructor. -/
structure TACACSHeader where
  version : Nat
  type : Nat
  session_id : Nat
  length : Nat
  seq_no : Nat
  flags : Nat
deriving DecidableEq, Repr

/-- Errors of `TACACSHeader.unpacked`: `headerDecodeError` is the
`ValueError` raised on an empty read ("Unable to extract data from
header..."), `structError` is a `struct.error` escaping from
`struct.unpack` when the buffer has the wrong size. -/
inductive DecodeError where
  | headerDecodeError : DecodeError
  | structError : DecodeError
deriving DecidableEq, Repr

deriving instance DecidableEq for Except

/-- The `packed` property: `struct.pack("BBBB", version, type, seq_no,
flags) + struct.pack("!I", session_id) + struct.pack("!I", length)`. -/
def TACACSHeader.packed (h : TACACSHeader) : List Nat :=
  [h.version, h.type, h.seq_no, h.flags]
    ++ packUInt32BE h.session_id ++ packUInt32BE h.length

/-- The `unpacked` classmethod.  `raw.read(4)` on a `BytesIO` returns
`min 4 raw.length` bytes; the `if raw_chars:` guard fails only when that is
empty, raising the `ValueError`; otherwise `struct.unpack("BBBB", raw_chars)`
raises `struct.error` unless exactly 4 bytes were read, and
`struct.unpack("!II", raw.read(8))` raises `struct.error` unless 8 more bytes
are available.  With at least 12 bytes the fields are read positionally:
bytes 0-3 are `version, type, seq_no, flags`, bytes 4-7 and 8-11 big-endian
`session_id` and `length`. -/
def TACACSHeader.unpacked (raw : List Nat) : Except DecodeError TACACSHeader :=
  if raw.length = 0 then
    Except.error DecodeError.headerDecodeError
  else if raw.length < 4 then
    Except.error DecodeError.structError
  else if raw.length < 12 then
    Except.error DecodeError.structError
  else
    Except.ok
      { version := raw.getD 0 0
        type := raw.getD 1 0
        session_id := fromBE4 (raw.getD 4 0) (raw.getD 5 0) (raw.getD 6 0) (raw.getD 7 0)
        length := fromBE4 (raw.getD 8 0) (raw.getD 9 0) (raw.getD 10 0) (raw.getD 11 0)
        seq_no := raw.getD 2 0
        flags := raw.getD 3 0 }

/-!
The obfuscation function `crypt(header, body_bytes, secret)`.
-/

/-- The seed (`unhashed` in the source):
`struct.pack("!I", header.session_id) + six.b(secret) +
struct.pack("B", header.version) + struct.pack("B", header.seq_no)`. -/
def seedBytes (header : TACACSHeader) (secret : List Nat) : List Nat :=
  packUInt32BE header.session_id ++ secret ++ [header.version, header.seq_no]

/-- The `while True:` loop of `crypt`: keep appending
`hashed = md5(unhashed + hashed)` to `pad` until `len(pad) >= body_length`.
Terminates because each iteration appends a 16-byte digest. -/
def padLoop (unhashed hashed pad : List Nat) (body_length : Nat) : List Nat :=
  if body_length ≤ (pad ++ md5 (unhashed ++ hashed)).length then
    pad ++ md5 (unhashed ++ hashed)
  else
    padLoop unhashed (md5 (unhashed ++ hashed)) (pad ++ md5 (unhashed ++ hashed)) body_length
termination_by body_length - pad.length
decreasing_by
  have hlen : 0 < (md5 (unhashed ++ hashed)).length := by
    unfold md5
    rcases (chunks (md5pad (unhashed ++ hashed))).foldl md5block
        (0x67452301, 0xefcdab89, 0x98badcfe, 0x10325476) with ⟨a, b, _x, _y⟩
    simp [toLE4]
  simp only [List.length_append, not_le] at *
  omega

/-- The pad computation inside `crypt`: `pad = md5(unhashed).digest()`, the
conditional `while` loop, then `pad = pad[0:body_length]`. -/
def pseudoPad (header : TACACSHeader) (secret : List Nat) (body_length : Nat) :
    List Nat :=
  let unhashed := seedBytes header secret
  let pad := md5 unhashed
  (if pad.length < body_length then padLoop unhashed pad pad body_length else pad).take
    body_length

/-- The function `crypt(header, body_bytes, secret)`: XOR each body byte with
the pad byte at the same position (`pad.pop(0)` walks the truncated pad in
order, so this is a positional zip). -/
def crypt (header : TACACSHeader) (body_bytes : List Nat) (secret : List Nat) :
    List Nat :=
  List.zipWith (fun x p => x ^^^ p) body_bytes
    (pseudoPad header secret body_bytes.length)

/-!
The `TACACSPacket` object.
-/

/-- The `TACACSPacket` object: a header, the cleartext `body_bytes`, and an
optional shared secret (`None` becomes `Option.none`). -/
structure TACACSPacket where
  header : TACACSHeader
  body_bytes : List Nat
  secret : Option (List Nat)

/-- The `encrypted` property: `self.secret is not None`. -/
def TACACSPacket.encrypted (p : TACACSPacket) : Bool :=
  p.secret.isSome

/-- The `body` property: `self.crypt` when `self.encrypted`, else the raw
`self.body_bytes`. -/
def TACACSPacket.body (p : TACACSPacket) : List Nat :=
  match p.secret with
  | some s => crypt p.header p.body_bytes s
  | none => p.body_bytes

/-- The `__bytes__` serialization: `self.header.packed + self.body`. -/
def TACACSPacket.toBytes (p : TACACSPacket) : List Nat :=
  p.header.packed ++ p.body

/-!
Spec-side definitions, used to state the refinement claims against the
implementation above.
-/

/-- Spec-side seed: 4-byte big-endian `session_id`, then the raw secret
bytes, then the single byte `version`, then the single byte `seq_no`. -/
def specSeed (session_id : Nat) (secret : List Nat) (version seq_no : Nat) :
    List Nat :=
  packUInt32BE session_id ++ secret ++ [version, seq_no]

/-- Spec-side hash chain: `specHash seed k` is `hash_{k+1}`, with
`hash_1 = MD5(seed)` and `hash_{i+1} = MD5(seed || hash_i)`. -/
def specHash (seed : List Nat) : Nat → List Nat
  | 0 => md5 seed
  | k + 1 => md5 (seed ++ specHash seed k)

/-- Spec-side concatenation `hash_1 || hash_2 || ... || hash_k`. -/
def specPadConcat (seed : List Nat) : Nat → List Nat
  | 0 => []
  | k + 1 => specPadConcat seed k ++ specHash seed k

/-- Spec-side pseudo-pad: accumulate chained hashes (16 bytes each, at least
one) until the accumulated length reaches `length`, then truncate to exactly
`length` bytes; `max ((length + 15) / 16) 1` is that number of hashes. -/
def padSpec (seed : List Nat) (length : Nat) : List Nat :=
  (specPadConcat seed (max ((length + 15) / 16) 1)).take length

/-- Big-endian recombination of an arbitrary byte list, used to state the
layout claims independently of `packUInt32BE`. -/
def ofBE (l : List Nat) : Nat :=
  l.foldl (fun acc b => acc * 256 + b) 0

/-!
Helper lemmas.
-/

/-- MD5 digests are always 16 bytes. -/
theorem md5_length (msg : List Nat) : (md5 msg).length = 16 := by
  unfold md5
  rcases (chunks (md5pad msg)).foldl md5block
      (0x67452301, 0xefcdab89, 0x98badcfe, 0x10325476) with ⟨a, b, c, d⟩
  simp [toLE4]

/-- Every hash in the spec-side chain is 16 bytes. -/
theorem specHash_length (seed : List Nat) (k : Nat) :
    (specHash seed k).length = 16 := by
  cases k <;> simp [specHash, md5_length]

/-- The concatenation of the first `k` chained hashes has `16 * k` bytes. -/
theorem specPadConcat_length (seed : List Nat) (k : Nat) :
    (specPadConcat seed k).length = 16 * k := by
  induction k with
  | zero => rfl
  | succ k ih => simp [specPadConcat, ih, specHash_length]; omega

/-- The accumulation loop of `crypt`, entered with the first `k + 1` chained
hashes already accumulated and more bytes still needed, produces exactly the
concatenation of the first `⌈L / 16⌉` chained hashes. -/
theorem padLoop_eq (seed : List Nat) :
    ∀ fuel k L, L - 16 * (k + 1) ≤ fuel → 16 * (k + 1) < L →
      padLoop seed (specHash seed k) (specPadConcat seed (k + 1)) L =
        specPadConcat seed ((L + 15) / 16) := by
  intro fuel
  induction fuel with
  | zero =>
    intro k L hfuel hlt
    omega
  | succ fuel ih =>
    intro k L hfuel hlt
    rw [padLoop]
    rw [show md5 (seed ++ specHash seed k) = specHash seed (k + 1) from rfl]
    rw [show specPadConcat seed (k + 1) ++ specHash seed (k + 1) =
          specPadConcat seed (k + 2) from rfl]
    rw [specPadConcat_length]
    by_cases hstop : L ≤ 16 * (k + 2)
    · rw [if_pos hstop]
      rw [show (L + 15) / 16 = k + 2 by omega]
    · rw [if_neg hstop]
      exact ih (k + 1) L (by omega) (by omega)

/-- The pad computed inside `crypt` equals the spec-side pseudo-pad. -/
theorem pseudoPad_eq_padSpec (header : TACACSHeader) (secret : List Nat)
    (L : Nat) : pseudoPad header secret L = padSpec (seedBytes header secret) L := by
  simp only [pseudoPad, padSpec]
  rw [md5_length]
  by_cases hL : 16 < L
  · rw [if_pos hL]
    rw [show md5 (seedBytes header secret) =
          specHash (seedBytes header secret) 0 from rfl]
    rw [show padLoop (seedBytes header secret)
            (specHash (seedBytes header secret) 0)
            (specHash (seedBytes header secret) 0) L =
          padLoop (seedBytes header secret)
            (specHash (seedBytes header secret) 0)
            (specPadConcat (seedBytes header secret) 1) L from rfl]
    rw [padLoop_eq (seedBytes header secret) (L - 16) 0 L (by omega) (by omega)]
    rw [show max ((L + 15) / 16) 1 = (L + 15) / 16 by omega]
  · rw [if_neg hL]
    rw [show max ((L + 15) / 16) 1 = 1 by omega]
    simp [specPadConcat, specHash]

/-- The spec-side pseudo-pad has exactly the requested length. -/
theorem padSpec_length (seed : List Nat) (L : Nat) :
    (padSpec seed L).length = L := by
  unfold padSpec
  rw [List.length_take, specPadConcat_length]
  omega

/-- The pad computed inside `crypt` has exactly the requested length. -/
theorem pseudoPad_length (header : TACACSHeader) (secret : List Nat) (L : Nat) :
    (pseudoPad header secret L).length = L := by
  rw [pseudoPad_eq_padSpec, padSpec_length]

/-- The output of `crypt` has the length of its input body. -/
theorem crypt_length_eq (header : TACACSHeader) (body_bytes secret : List Nat) :
    (crypt header body_bytes secret).length = body_bytes.length := by
  unfold crypt
  rw [List.length_zipWith, pseudoPad_length, Nat.min_self]

/-- Byte-wise XOR against the same (sufficiently long) pad twice is the
identity. -/
theorem zipWith_xor_xor (l : List Nat) :
    ∀ p : List Nat, l.length ≤ p.length →
      List.zipWith (fun x q => x ^^^ q)
        (List.zipWith (fun x q => x ^^^ q) l p) p = l := by
  induction l with
  | nil => intro p _; simp
  | cons a l ih =>
    intro p hp
    cases p with
    | nil => simp at hp
    | cons b p =>
      simp only [List.zipWith, List.cons.injEq]
      exact ⟨Nat.xor_cancel_right b a, ih p (by simpa using hp)⟩

/-!
Claim theorems.
-/

/-- C1: `crypt(H, B, S)` XORs `B` byte-for-byte with the pseudo-pad given by
the spec: seed = 4-byte big-endian `session_id` || secret || `version` ||
`seq_no`; `hash_1 = MD5(seed)`, `hash_{i+1} = MD5(seed || hash_i)`; the pad is
`hash_1 || hash_2 || ...` truncated to `len(B)`.  In particular a 40-byte
body uses exactly 3 chained hashes: the pad of length 40 is the first 40
bytes of `hash_1 || hash_2 || hash_3`. -/
theorem crypt_eq_spec_pseudo_pad :
    (∀ (H : TACACSHeader) (S B : List Nat),
        crypt H B S = List.zipWith (fun x p => x ^^^ p) B
          (padSpec (specSeed H.session_id S H.version H.seq_no) B.length)) ∧
    (∀ (H : TACACSHeader) (S : List Nat),
        padSpec (specSeed H.session_id S H.version H.seq_no) 40 =
          (specHash (specSeed H.session_id S H.version H.seq_no) 0 ++
           specHash (specSeed H.session_id S H.version H.seq_no) 1 ++
           specHash (specSeed H.session_id S H.version H.seq_no) 2).take 40) := by
  constructor
  · intro H S B
    rw [show specSeed H.session_id S H.version H.seq_no = seedBytes H S from rfl,
        ← pseudoPad_eq_padSpec]
    rfl
  · intro H S
    unfold padSpec
    rw [show max ((40 + 15) / 16) 1 = 3 by omega]
    simp [specPadConcat, List.append_assoc]

/-- C2: obfuscation is an involution: applying `crypt` twice with the same
header fields and secret returns the original body. -/
theorem crypt_involutive (H : TACACSHeader) (B S : List Nat) :
    crypt H (crypt H B S) S = B := by
  have hlen : (crypt H B S).length = B.length := crypt_length_eq H B S
  unfold crypt
  rw [show (List.zipWith (fun x p => x ^^^ p) B
        (pseudoPad H S B.length)).length = B.length from hlen]
  exact zipWith_xor_xor B (pseudoPad H S B.length)
    (le_of_eq (pseudoPad_length H S B.length).symm)

/-- C6: obfuscation is length-preserving, even for the empty body, and the
derived pad is truncated to exactly the requested length for every
`length ≥ 0`. -/
theorem crypt_length_preserving :
    (∀ (H : TACACSHeader) (S B : List Nat),
        (crypt H B S).length = B.length) ∧
    (∀ (H : TACACSHeader) (S : List Nat) (L : Nat),
        (pseudoPad H S L).length = L) := by
  exact ⟨fun H S B => crypt_length_eq H B S, fun H S L => pseudoPad_length H S L⟩

/-- C10: the output of `crypt` does not depend on the header fields `type`,
`flags` and `length`: two headers agreeing on `session_id`, `version` and
`seq_no` obfuscate every body identically. -/
theorem crypt_independent_of_type_flags_length
    (H1 H2 : TACACSHeader) (B S : List Nat)
    (hsid : H1.session_id = H2.session_id) (hver : H1.version = H2.version)
    (hseq : H1.seq_no = H2.seq_no) : crypt H1 B S = crypt H2 B S := by
  obtain ⟨v1, t1, s1, l1, q1, f1⟩ := H1
  obtain ⟨v2, t2, s2, l2, q2, f2⟩ := H2
  simp only [TACACSHeader.session_id, TACACSHeader.version, TACACSHeader.seq_no] at hsid hver hseq
  subst hsid hver hseq
  rfl

/-- C10 witness: two concrete headers differing in `type`, `flags` and
`length` produce the same obfuscated body. -/
theorem crypt_independent_of_type_flags_length_witness :
    crypt ⟨0xc0, 1, 7, 0, 1, 0⟩ [1, 2, 3] [9] =
      crypt ⟨0xc0, 2, 7, 99, 1, 8⟩ [1, 2, 3] [9] :=
  crypt_independent_of_type_flags_length
    ⟨0xc0, 1, 7, 0, 1, 0⟩ ⟨0xc0, 2, 7, 99, 1, 8⟩ [1, 2, 3] [9] rfl rfl rfl

/-- C3 counterexample: a 1-byte input (fewer than 4 bytes) does not produce
the header-decode error; it fails with the struct unpack error instead. -/
theorem unpacked_one_byte_not_header_error :
    TACACSHeader.unpacked [0] ≠ Except.error DecodeError.headerDecodeError ∧
    TACACSHeader.unpacked [0] = Except.error DecodeError.structError ∧
    ([0] : List Nat).length < 4 := by
  refine ⟨?_, rfl, by decide⟩
  intro hcontra
  have hval : TACACSHeader.unpacked [0] =
      Except.error DecodeError.structError := rfl
  rw [hcontra] at hval
  cases Except.error.inj hval

/-- C3 (amended): only the empty input raises the header-decode error; a
nonempty input of fewer than 4 bytes fails with the struct unpack error
raised by `struct.unpack("BBBB", ...)`, so every input of fewer than 4 bytes
fails, but with two different error kinds. -/
theorem unpacked_short_input_errors :
    TACACSHeader.unpacked [] = Except.error DecodeError.headerDecodeError ∧
    ∀ raw : List Nat, raw.length ≠ 0 → raw.length < 4 →
      TACACSHeader.unpacked raw = Except.error DecodeError.structError := by
  refine ⟨rfl, ?_⟩
  intro raw h0 h4
  unfold TACACSHeader.unpacked
  rw [if_neg h0, if_pos h4]

/-- C3 (amended) witness: a concrete 2-byte input fails with the struct
unpack error. -/
theorem unpacked_short_input_errors_witness :
    TACACSHeader.unpacked [1, 2] = Except.error DecodeError.structError :=
  unpacked_short_input_errors.2 [1, 2] (by decide) (by decide)

/-- C4: decoding the 12 bytes produced by encoding a header with all fields
in their natural ranges yields a header equal to the original field by
field. -/
theorem header_unpack_pack_roundtrip (h : TACACSHeader)
    (hv : h.version < 256) (ht : h.type < 256) (hq : h.seq_no < 256)
    (hf : h.flags < 256) (hsid : h.session_id < 4294967296)
    (hlen : h.length < 4294967296) :
    TACACSHeader.unpacked h.packed = Except.ok h := by
  obtain ⟨v, t, sid, len, sq, fl⟩ := h
  replace hsid : sid < 4294967296 := hsid
  replace hlen : len < 4294967296 := hlen
  rw [show TACACSHeader.packed ⟨v, t, sid, len, sq, fl⟩ =
      [v, t, sq, fl, sid / 16777216 % 256, sid / 65536 % 256, sid / 256 % 256,
       sid % 256, len / 16777216 % 256, len / 65536 % 256, len / 256 % 256,
       len % 256] from rfl]
  unfold TACACSHeader.unpacked
  rw [show ([v, t, sq, fl, sid / 16777216 % 256, sid / 65536 % 256,
      sid / 256 % 256, sid % 256, len / 16777216 % 256, len / 65536 % 256,
      len / 256 % 256, len % 256] : List Nat).length = 12 from by simp]
  rw [if_neg (by omega), if_neg (by omega), if_neg (by omega)]
  simp only [Except.ok.injEq, TACACSHeader.mk.injEq]
  refine ⟨rfl, rfl, ?_, ?_, rfl, rfl⟩
  · show fromBE4 (sid / 16777216 % 256) (sid / 65536 % 256) (sid / 256 % 256)
        (sid % 256) = sid
    unfold fromBE4
    omega
  · show fromBE4 (len / 16777216 % 256) (len / 65536 % 256) (len / 256 % 256)
        (len % 256) = len
    unfold fromBE4
    omega

/-- C4 witness: the concrete header of the spec scenario round-trips. -/
theorem header_unpack_pack_roundtrip_witness :
    TACACSHeader.unpacked (TACACSHeader.packed ⟨0xc1, 1, 305419896, 0, 1, 0⟩) =
      Except.ok ⟨0xc1, 1, 305419896, 0, 1, 0⟩ :=
  header_unpack_pack_roundtrip ⟨0xc1, 1, 305419896, 0, 1, 0⟩ (by decide)
    (by decide) (by decide) (by decide) (by decide) (by decide)

/-- C5: encoding a header with all fields in their natural ranges produces
exactly 12 bytes: bytes 0-3 are `version`, `type`, `seq_no`, `flags`, bytes
4-7 are `session_id` big-endian, bytes 8-11 are `length` big-endian, and
every emitted byte is below 256. -/
theorem header_packed_layout (h : TACACSHeader)
    (hv : h.version < 256) (ht : h.type < 256) (hq : h.seq_no < 256)
    (hf : h.flags < 256) (hsid : h.session_id < 4294967296)
    (hlen : h.length < 4294967296) :
    h.packed.length = 12 ∧
    h.packed.take 4 = [h.version, h.type, h.seq_no, h.flags] ∧
    ofBE ((h.packed.drop 4).take 4) = h.session_id ∧
    ofBE (h.packed.drop 8) = h.length ∧
    ∀ b ∈ h.packed, b < 256 := by
  obtain ⟨v, t, sid, len, sq, fl⟩ := h
  replace hv : v < 256 := hv
  replace ht : t < 256 := ht
  replace hq : sq < 256 := hq
  replace hf : fl < 256 := hf
  replace hsid : sid < 4294967296 := hsid
  replace hlen : len < 4294967296 := hlen
  rw [show TACACSHeader.packed ⟨v, t, sid, len, sq, fl⟩ =
      [v, t, sq, fl, sid / 16777216 % 256, sid / 65536 % 256, sid / 256 % 256,
       sid % 256, len / 16777216 % 256, len / 65536 % 256, len / 256 % 256,
       len % 256] from rfl]
  refine ⟨by simp, rfl, ?_, ?_, ?_⟩
  · show ofBE [sid / 16777216 % 256, sid / 65536 % 256, sid / 256 % 256,
        sid % 256] = sid
    simp [ofBE]
    omega
  · show ofBE [len / 16777216 % 256, len / 65536 % 256, len / 256 % 256,
        len % 256] = len
    simp [ofBE]
    omega
  · intro b hb
    simp only [List.mem_cons, List.not_mem_nil, or_false] at hb
    rcases hb with rfl | rfl | rfl | rfl | rfl | rfl | rfl | rfl | rfl | rfl
      | rfl | rfl <;> omega

/-- C5 witness: the layout facts at a concrete in-range header. -/
theorem header_packed_layout_witness :
    (TACACSHeader.packed ⟨0xc1, 1, 305419896, 0, 1, 0⟩).length = 12 :=
  (header_packed_layout ⟨0xc1, 1, 305419896, 0, 1, 0⟩ (by decide) (by decide)
    (by decide) (by decide) (by decide) (by decide)).1

/-- C8: header decoding reads exactly the first 12 bytes: for any 12-byte
prefix it succeeds, and appending arbitrary suffixes neither changes the
result nor makes it fail. -/
theorem unpacked_consumes_twelve_bytes (P S1 S2 : List Nat)
    (hP : P.length = 12) :
    (∃ h, TACACSHeader.unpacked P = Except.ok h) ∧
    TACACSHeader.unpacked (P ++ S1) = TACACSHeader.unpacked P ∧
    TACACSHeader.unpacked (P ++ S2) = TACACSHeader.unpacked P := by
  have key : ∀ S : List Nat,
      TACACSHeader.unpacked (P ++ S) = TACACSHeader.unpacked P := by
    intro S
    have hget : ∀ i, i < 12 → (P ++ S).getD i 0 = P.getD i 0 := by
      intro i hi
      exact List.getD_append P S 0 i (by omega)
    unfold TACACSHeader.unpacked
    rw [List.length_append, hP]
    rw [if_neg (show ¬((12 : Nat) + S.length = 0) by omega),
        if_neg (show ¬((12 : Nat) + S.length < 4) by omega),
        if_neg (show ¬((12 : Nat) + S.length < 12) by omega),
        if_neg (show ¬((12 : Nat) = 0) by omega),
        if_neg (show ¬((12 : Nat) < 4) by omega),
        if_neg (show ¬((12 : Nat) < 12) by omega)]
    refine congrArg Except.ok ?_
    simp only [TACACSHeader.mk.injEq, fromBE4]
    refine ⟨hget 0 (by omega), hget 1 (by omega), ?_, ?_, hget 2 (by omega),
      hget 3 (by omega)⟩
    · rw [hget 4 (by omega), hget 5 (by omega), hget 6 (by omega),
        hget 7 (by omega)]
    · rw [hget 8 (by omega), hget 9 (by omega), hget 10 (by omega),
        hget 11 (by omega)]
  refine ⟨⟨⟨P.getD 0 0, P.getD 1 0,
      fromBE4 (P.getD 4 0) (P.getD 5 0) (P.getD 6 0) (P.getD 7 0),
      fromBE4 (P.getD 8 0) (P.getD 9 0) (P.getD 10 0) (P.getD 11 0),
      P.getD 2 0, P.getD 3 0⟩, ?_⟩, key S1, key S2⟩
  unfold TACACSHeader.unpacked
  rw [hP]
  rw [if_neg (show ¬((12 : Nat) = 0) by omega),
      if_neg (show ¬((12 : Nat) < 4) by omega),
      if_neg (show ¬((12 : Nat) < 12) by omega)]

/-- C8 witness: a concrete 12-byte prefix decodes the same with and without
extra suffix bytes. -/
theorem unpacked_consumes_twelve_bytes_witness :
    TACACSHeader.unpacked ([0xc1, 1, 1, 0, 0, 0, 0, 9, 0, 0, 0, 2] ++ [7]) =
      TACACSHeader.unpacked [0xc1, 1, 1, 0, 0, 0, 0, 9, 0, 0, 0, 2] :=
  (unpacked_consumes_twelve_bytes [0xc1, 1, 1, 0, 0, 0, 0, 9, 0, 0, 0, 2]
    [7] [8, 9] (by decide)).2.1

/-- C9: an input of at least 4 but fewer than 12 bytes fails with the struct
unpack error (from the fixed-width unpack of the two 32-bit fields), which is
a different error kind from the header-decode error; decoding succeeds
exactly when at least 12 bytes are supplied. -/
theorem unpacked_partial_header_struct_error (raw : List Nat) :
    (4 ≤ raw.length → raw.length < 12 →
      TACACSHeader.unpacked raw = Except.error DecodeError.structError) ∧
    DecodeError.structError ≠ DecodeError.headerDecodeError ∧
    ((∃ h, TACACSHeader.unpacked raw = Except.ok h) ↔ 12 ≤ raw.length) := by
  refine ⟨?_, by decide, ?_, ?_⟩
  · intro h4 h12
    unfold TACACSHeader.unpacked
    rw [if_neg (by omega), if_neg (by omega), if_pos h12]
  · rintro ⟨h, hh⟩
    by_contra hlt
    unfold TACACSHeader.unpacked at hh
    split_ifs at hh
    omega
  · intro h12
    refine ⟨⟨raw.getD 0 0, raw.getD 1 0,
        fromBE4 (raw.getD 4 0) (raw.getD 5 0) (raw.getD 6 0) (raw.getD 7 0),
        fromBE4 (raw.getD 8 0) (raw.getD 9 0) (raw.getD 10 0) (raw.getD 11 0),
        raw.getD 2 0, raw.getD 3 0⟩, ?_⟩
    unfold TACACSHeader.unpacked
    rw [if_neg (show ¬(raw.length = 0) by omega),
        if_neg (show ¬(raw.length < 4) by omega),
        if_neg (show ¬(raw.length < 12) by omega)]

/-- C9 witness: a concrete 8-byte input fails with the struct unpack error. -/
theorem unpacked_partial_header_struct_error_witness :
    TACACSHeader.unpacked [1, 2, 3, 4, 5, 6, 7, 8] =
      Except.error DecodeError.structError :=
  (unpacked_partial_header_struct_error [1, 2, 3, 4, 5, 6, 7, 8]).1
    (by decide) (by decide)

/-- C7: the serialized wire form is the packed header followed by the
transmitted body; with a secret the transmitted body is `crypt` of the
cleartext body, and with `secret = None` the cleartext body passes through
unchanged. -/
theorem packet_wire_form :
    (∀ (h : TACACSHeader) (b s : List Nat),
        (TACACSPacket.mk h b (some s)).toBytes = h.packed ++ crypt h b s) ∧
    (∀ (h : TACACSHeader) (b : List Nat),
        (TACACSPacket.mk h b none).toBytes = h.packed ++ b) ∧
    (∀ p : TACACSPacket, p.secret = none → p.body = p.body_bytes) ∧
    (∀ (p : TACACSPacket) (s : List Nat), p.secret = some s →
        p.body = crypt p.header p.body_bytes s) := by
  refine ⟨fun h b s => rfl, fun h b => rfl, ?_, ?_⟩
  · intro p hp
    unfold TACACSPacket.body
    rw [hp]
  · intro p s hp
    unfold TACACSPacket.body
    rw [hp]

/-- C7 witness: a concrete secretless packet transmits its body unchanged. -/
theorem packet_wire_form_witness :
    (TACACSPacket.mk ⟨1, 2, 3, 4, 5, 6⟩ [7, 8] none).body = [7, 8] :=
  packet_wire_form.2.2.1 (TACACSPacket.mk ⟨1, 2, 3, 4, 5, 6⟩ [7, 8] none) rfl
